import Mathlib

/-
  Verification of the wave-control core of ROCdbgapi (src/wave.cpp).

  The development shallowly embeds the wave state machine, the resume API
  entry point, the register I/O routing, and the swizzled private-memory
  transfer loop as executable Lean functions, and proves the behavioural
  properties stated about them.  External collaborators (architecture
  backend, process, queue, agent) are modelled as explicit environment
  records carrying the values their calls would return; their side effects
  are recorded in an action trace.
-/

namespace ROCdbgapi

/-- `amd_dbgapi_wave_state_t`: RUN, SINGLE_STEP, STOP. -/
inductive WaveState
  | run
  | singleStep
  | stop
deriving DecidableEq, Repr

/-- `wave_t::visibility_t`. -/
inductive Visibility
  | visible
  | hiddenHaltedAtLaunch
  | hiddenAtTerminatingInstruction
deriving DecidableEq, Repr

/-- `event_t::state_t` as used by the wave core: an event is created
pending, becomes reported once given to the client, and processed once the
client acknowledges it. -/
inductive EventState
  | pending
  | reported
  | processed
deriving DecidableEq, Repr

/-- Numeric rank of an event state, for the `>=` / `<` comparisons in the
source. -/
def EventState.toNat : EventState → Nat
  | .pending => 0
  | .reported => 1
  | .processed => 2

/-- `amd_dbgapi_event_kind_t`, restricted to the kinds the wave core
creates. -/
inductive EventKind
  | waveStop
  | waveCommandTerminated
deriving DecidableEq, Repr

/-- An instruction, abstracted to the two architecture predicates the wave
core queries about it (`is_terminating_instruction`, `can_simulate`). -/
structure Instr where
  isTerminating : Bool
  canSimulate : Bool
deriving DecidableEq, Repr

/-- `displaced_stepping_t`, abstracted to the fields the wave core reads. -/
structure DisplacedStepping where
  fromAddr : Nat
  toAddr : Nat
  originalInstruction : Instr
  isSimulated : Bool
deriving DecidableEq, Repr

/- Stop-reason bits (`amd_dbgapi_wave_stop_reason_t`); the wave core only
tests the SINGLE_STEP and MEMORY_VIOLATION bits. -/

def STOP_REASON_SINGLE_STEP : Nat := 1

def STOP_REASON_MEMORY_VIOLATION : Nat := 32

/- Exception bits (`amd_dbgapi_exceptions_t`); NONE is 0. -/

def EXCEPTION_WAVE_ABORT : Nat := 1

def EXCEPTION_WAVE_TRAP : Nat := 2

def EXCEPTION_WAVE_MATH_ERROR : Nat := 4

def EXCEPTION_WAVE_ILLEGAL_INSTRUCTION : Nat := 8

def EXCEPTION_WAVE_MEMORY_VIOLATION : Nat := 16

def EXCEPTION_WAVE_APERTURE_VIOLATION : Nat := 32

/- `os_exception_mask_t` bits used by the translation in `set_state`. -/

def os_queue_wave_abort : Nat := 1

def os_queue_wave_trap : Nat := 2

def os_queue_wave_math_error : Nat := 4

def os_queue_wave_illegal_instruction : Nat := 8

def os_queue_wave_memory_violation : Nat := 16

def os_queue_wave_aperture_violation : Nat := 32

def os_device_memory_violation : Nat := 64

/-- The wave object (`wave_t`), restricted to the mutable state the claims
are about.  The pc register storage in the context save area is abstracted
to `cwsrPc`; `Wave.pc`/`Wave.writePc` reproduce the parked routing of
`read_register`/`write_register` for `amdgpu_regnum_t::pc`. -/
structure Wave where
  state : WaveState
  visibility : Visibility
  stopReason : Nat
  stopRequested : Bool
  isParked : Bool
  parkedPc : Nat
  cwsrPc : Nat
  lastStoppedPc : Nat
  haltBit : Bool
  displacedStepping : Option DisplacedStepping
  lastStopEvent : Option EventState
  processChangedWave : Bool
deriving DecidableEq, Repr

/-- Environment: results of the architecture/process/agent calls made
by `set_state` and its callees. -/
structure Env where
  parkStoppedWaves : Bool
  parkInstructionAddress : Nat
  terminatingInstructionAddress : Nat
  instructionAtPc : Option Instr
  simulateOutcome : Bool
  simulatedState : WaveState
  simulatedStopReason : Nat
  agentExceptions : Nat
  otherAgentWaveStoppedWithMemViol : Bool
deriving DecidableEq, Repr

/-- `wave_t::pc ()` by way of `read_register (pc)`: a parked wave reads
`m_parked_pc`, otherwise the context save area. -/
def Wave.pc (w : Wave) : Nat :=
  if w.isParked then w.parkedPc else w.cwsrPc

/-- `write_register (amdgpu_regnum_t::pc, v)`: a parked wave writes
`m_parked_pc`, otherwise the context save area. -/
def Wave.writePc (w : Wave) (v : Nat) : Wave :=
  if w.isParked then { w with parkedPc := v } else { w with cwsrPc := v }

/-- Side effects recorded as actions in a trace. -/
inductive Action
  | archSetState (s : WaveState) (exceptions : Nat)
  | archSetHalt (b : Bool)
  | raiseEvent (k : EventKind) (stopReasonAtRaise : Nat)
  | sendExceptions (osMask : Nat)
  | clearDeviceMemoryViolation
deriving DecidableEq, Repr

/-- `wave_t::raise_event`: creates the event (initially pending), records
it as the last stop event, and enqueues it.  The trace entry carries the
wave's `m_stop_reason` at the moment the event is raised. -/
def raise_event (w : Wave) (k : EventKind) : Wave × Action :=
  ({ w with lastStopEvent := some .pending }, .raiseEvent k w.stopReason)

/-- `wave_t::set_visibility`. -/
def set_visibility (w : Wave) (v : Visibility) : Wave × List Action :=
  if w.visibility = v then (w, [])
  else
    let p :=
      if w.visibility = .hiddenHaltedAtLaunch then
        (({ w with haltBit := false } : Wave), [Action.archSetHalt false])
      else (w, [])
    ({ p.1 with visibility := v, processChangedWave := true }, p.2)

/-- `wave_t::park`: save the real pc into `m_parked_pc`, write the park
instruction address to the pc register through the normal (unparked) path,
then mark the wave parked. -/
def park (e : Env) (w : Wave) : Wave :=
  let w1 := { w with parkedPc := w.pc }
  let w2 := w1.writePc e.parkInstructionAddress
  { w2 with isParked := true }

/-- `wave_t::unpark`: read the (parked-path) pc, clear `m_is_parked`, and
write the pc back through the normal path. -/
def unpark (w : Wave) : Wave :=
  let saved := w.pc
  let w1 := { w with isParked := false }
  w1.writePc saved

/-- The condition of `wave.cpp:448-460`: the instruction about to be
single-stepped is a terminating instruction (the displaced original when a
displaced stepping is outstanding, otherwise the instruction at pc). -/
def terminatingCond (dsp : Option DisplacedStepping) (instruction : Option Instr) : Bool :=
  match dsp with
  | some ds => ds.originalInstruction.isTerminating
  | none =>
    match instruction with
    | some i => i.isTerminating
    | none => false

/-- The condition of `wave.cpp:519-533`: the single-stepped instruction is
simulated (displaced and marked simulated, or simulatable at pc), and the
architecture's `simulate` call reports success. -/
def simulateCond (e : Env) (dsp : Option DisplacedStepping) (instruction : Option Instr) : Bool :=
  match dsp with
  | some ds => ds.isSimulated && e.simulateOutcome
  | none =>
    match instruction with
    | some i => i.canSimulate && e.simulateOutcome
    | none => false

/-- `convert_one_exception` (wave.cpp:547-570). -/
def convert_one_exception (e : Env) (x : Nat) : Nat :=
  if x = EXCEPTION_WAVE_ABORT then os_queue_wave_abort
  else if x = EXCEPTION_WAVE_TRAP then os_queue_wave_trap
  else if x = EXCEPTION_WAVE_MATH_ERROR then os_queue_wave_math_error
  else if x = EXCEPTION_WAVE_ILLEGAL_INSTRUCTION then os_queue_wave_illegal_instruction
  else if x = EXCEPTION_WAVE_MEMORY_VIOLATION then
    os_queue_wave_memory_violation ||| (e.agentExceptions &&& os_device_memory_violation)
  else if x = EXCEPTION_WAVE_APERTURE_VIOLATION then os_queue_wave_aperture_violation
  else 0

/-- The bit-peeling loop of wave.cpp:575-580: repeatedly extract the lowest
set bit `x ^^^ (x &&& (x - 1))`, convert it, and OR the results. -/
def os_exceptions_of (e : Env) (x : Nat) : Nat :=
  if hx : x = 0 then 0
  else
    let one := x ^^^ (x &&& (x - 1))
    convert_one_exception e one ||| os_exceptions_of e (x ^^^ one)
termination_by x
decreasing_by
  simp only [Nat.xor_cancel_left]
  exact Nat.lt_of_lt_of_le (Nat.lt_of_le_of_lt (Nat.and_le_right)
    (Nat.pred_lt hx)) (Nat.le_refl _)

/-- `wave_t::set_state`, everything after the terminating-instruction
early-out (wave.cpp:467-608).  `prevState` is `m_state` on entry; the
result pairs the updated wave with the trace of external calls. -/
def set_state_go (e : Env) (w : Wave) (state : WaveState) (exceptions : Nat)
    (instruction : Option Instr) : Wave × List Action :=
  let prev := w.state
  -- architecture.wave_set_state (*this, state, exceptions); m_state = state;
  let tr1 : List Action := [Action.archSetState state exceptions]
  let w1 := { w with state := state }
  -- park stopped waves / unpark resumed waves
  let w2 :=
    if e.parkStoppedWaves then
      if state = WaveState.stop then park e w1 else unpark w1
    else w1
  -- leaving STOP: save last stopped pc, clear the stop reason;
  -- entering STOP from non-STOP: clear the stop reason and raise an event
  let p3 : Wave × List Action :=
    if state ≠ WaveState.stop then
      ({ w2 with lastStoppedPc := w2.pc, stopReason := 0 }, [])
    else if prev ≠ WaveState.stop then
      let w' := { w2 with stopReason := 0 }
      let q := raise_event w'
        (if prev = WaveState.singleStep then EventKind.waveCommandTerminated
         else EventKind.waveStop)
      (q.1, [q.2])
    else (w2, [])
  let w3 := p3.1
  -- simulate the single-stepped instruction when possible
  let p4 : Wave × List Action :=
    if state = WaveState.singleStep ∧ exceptions = 0 ∧
        simulateCond e w3.displacedStepping instruction = true then
      let wa := { w3 with state := e.simulatedState, stopReason := e.simulatedStopReason }
      let wb := if e.parkStoppedWaves then park e wa else wa
      let q := raise_event wb EventKind.waveStop
      (q.1, [q.2])
    else (w3, [])
  let w4 := p4.1
  -- translate and send the exceptions
  let tr5 : List Action :=
    if exceptions ≠ 0 then [Action.sendExceptions (os_exceptions_of e exceptions)] else []
  -- clear the agent's device_memory_violation when no stopped wave on the
  -- agent still shows a memory-violation stop reason
  let tr6 : List Action :=
    if (e.agentExceptions &&& os_device_memory_violation) ≠ 0 ∧ state ≠ WaveState.stop then
      if ¬ e.otherAgentWaveStoppedWithMemViol ∧
          ¬ (w4.state = WaveState.stop ∧ (w4.stopReason &&& STOP_REASON_MEMORY_VIOLATION) ≠ 0) then
        [Action.clearDeviceMemoryViolation]
      else []
    else []
  (w4, tr1 ++ p3.2 ++ p4.2 ++ tr5 ++ tr6)

/-- `wave_t::terminate` (wave.cpp:179-202): release any displaced
stepping, point the pc at the terminating instruction, hide the wave, and
set it running.  The final `set_state (RUN)` is inlined: with a RUN target
the terminating-instruction early-out of `set_state` cannot trigger, so
the call reduces to the early-return check, the `m_stop_requested` update
and `set_state_go`. -/
def terminate (e : Env) (w : Wave) : Wave × List Action :=
  let w1 := { w with displacedStepping := none }
  let w2 := w1.writePc e.terminatingInstructionAddress
  let p := set_visibility w2 Visibility.hiddenAtTerminatingInstruction
  let w3 := p.1
  if WaveState.run = w3.state then (w3, p.2)
  else
    let w4 := { w3 with stopRequested := decide (WaveState.run = WaveState.stop) }
    let q := set_state_go e w4 WaveState.run 0 none
    (q.1, p.2 ++ q.2)

/-- `wave_t::set_state` (wave.cpp:421-609). -/
def set_state (e : Env) (w : Wave) (state : WaveState) (exceptions : Nat) :
    Wave × List Action :=
  let prev := w.state
  if state = prev then (w, [])
  else
    let w1 := { w with stopRequested := decide (state = WaveState.stop) }
    let instruction : Option Instr :=
      if state = WaveState.singleStep then e.instructionAtPc else none
    if state = WaveState.singleStep ∧ exceptions = 0 ∧
        terminatingCond w1.displacedStepping instruction = true then
      let p := terminate e w1
      let q := raise_event p.1 EventKind.waveCommandTerminated
      (q.1, p.2 ++ [q.2])
    else
      set_state_go e w1 state exceptions instruction

/-- `wave_t::client_visible_state` (wave.cpp:951-968). -/
def client_visible_state (w : Wave) : WaveState :=
  if w.state ≠ WaveState.stop then w.state
  else
    match w.lastStopEvent with
    | none => WaveState.stop
    | some es =>
      if EventState.reported.toNat ≤ es.toNat then WaveState.stop
      else if (w.stopReason &&& STOP_REASON_SINGLE_STEP) ≠ 0 then WaveState.singleStep
      else WaveState.run

/- ----- the `amd_dbgapi_wave_resume` entry point ----- -/

/-- `amd_dbgapi_status_t`, restricted to the values the embedded entry
points return. -/
inductive Status
  | success
  | notInitialized
  | invalidWaveId
  | invalidArgument
  | waveNotStopped
  | waveNotResumable
  | resumeDisplacedStepping
  | clientCallback
  | invalidArgumentCompatibility
deriving DecidableEq, Repr

def RESUME_MODE_NORMAL : Nat := 0

def RESUME_MODE_SINGLE_STEP : Nat := 1

/-- The OR of the six exception bits accepted by `amd_dbgapi_wave_resume`
(wave.cpp:1114-1121); equals 63, so `exceptions & ~mask != 0` is exactly
`63 < exceptions` on natural-number bitsets. -/
def exceptions_valid_mask : Nat :=
  EXCEPTION_WAVE_ABORT ||| EXCEPTION_WAVE_TRAP ||| EXCEPTION_WAVE_MATH_ERROR |||
  EXCEPTION_WAVE_ILLEGAL_INSTRUCTION ||| EXCEPTION_WAVE_MEMORY_VIOLATION |||
  EXCEPTION_WAVE_APERTURE_VIOLATION

/-- The `last_stop_event` test of wave.cpp:1127-1128: the event exists and
its state has not reached processed. -/
def last_stop_event_lt_processed (w : Wave) : Bool :=
  match w.lastStopEvent with
  | some es => decide (es.toNat < EventState.processed.toNat)
  | none => false

/-- Result of `amd_dbgapi_wave_resume` up to and including the
`set_state` call: the returned status, whether the queue was suspended,
and the arguments `set_state` was invoked with (none when it was not). -/
structure ResumeResult where
  status : Status
  queueSuspended : Bool
  setStateArgs : Option (WaveState × Nat)
deriving DecidableEq, Repr

/-- `amd_dbgapi_wave_resume` (wave.cpp:1093-1150).  `wave` is the result
of the first `find (wave_id)`, `waveAfterSuspend` the result of the
re-lookup after the queue suspension. -/
def amd_dbgapi_wave_resume (initialized : Bool) (wave : Option Wave)
    (waveAfterSuspend : Option Wave) (resumeMode : Nat) (exceptions : Nat) :
    ResumeResult :=
  if ¬ initialized then ⟨.notInitialized, false, none⟩
  else
    match wave with
    | none => ⟨.invalidWaveId, false, none⟩
    | some w =>
      if resumeMode ≠ RESUME_MODE_NORMAL ∧ resumeMode ≠ RESUME_MODE_SINGLE_STEP then
        ⟨.invalidArgument, false, none⟩
      else if exceptions_valid_mask < exceptions then
        -- exceptions & ~(the six accepted bits) != NONE
        ⟨.invalidArgument, false, none⟩
      else if client_visible_state w ≠ WaveState.stop then
        ⟨.waveNotStopped, false, none⟩
      else if last_stop_event_lt_processed w = true then
        ⟨.waveNotResumable, false, none⟩
      else if w.displacedStepping.isSome ∧ resumeMode ≠ RESUME_MODE_SINGLE_STEP then
        ⟨.resumeDisplacedStepping, false, none⟩
      else
        match waveAfterSuspend with
        | none => ⟨.invalidWaveId, true, none⟩
        | some _ =>
          ⟨.success, true,
            some (if resumeMode = RESUME_MODE_SINGLE_STEP then WaveState.singleStep
                  else WaveState.run, exceptions)⟩

/- ----- register I/O routing (read_register / write_register) ----- -/

/-- The architecture-dependent register layout as consulted by
`read_register`/`write_register`: classification predicates, the CWSR
register addresses, register sizes, the privilege bit of the CWSR record,
and the cached window `[cacheBase, cacheBase + cacheLen)`.  Registers are
identified by their `amdgpu_regnum_t` value; whole registers are
read/written (offset 0, size = register size). -/
structure RegEnv where
  pcReg : Nat
  s0 : Nat
  v0 : Nat
  isPseudo : Nat → Bool
  isSgpr : Nat → Bool
  isVgpr : Nat → Bool
  isTtmp : Nat → Bool
  regAddress : Nat → Option Nat
  regSize : Nat → Nat
  isPriv : Bool
  cacheBase : Nat
  cacheLen : Nat
  pseudoValue : Nat → Nat

/-- The register-backing state: parking metadata, the register cache
contents and dirty bit, and global memory, both addressed by the CWSR
register address. -/
structure RegSt where
  isParked : Bool
  parkedPc : Nat
  cache : Nat → Nat
  cacheDirty : Bool
  mem : Nat → Nat

/-- `memory_cache_t::contains`: the cached window encloses
`[addr, addr + len)`. -/
def cache_contains (e : RegEnv) (addr len : Nat) : Bool :=
  decide (e.cacheBase ≤ addr ∧ addr + len ≤ e.cacheBase + e.cacheLen)

/-- `wave_t::read_register` (wave.cpp:636-702), reading a whole register.
Pseudo registers delegate to the architecture (`pseudoValue`); out-of-range
SGPRs alias `s0` and out-of-range VGPRs alias `v0`; non-privileged TTMP
reads return zero; a parked pc read is served from `m_parked_pc`; cached
addresses are served from the cache and everything else from global
memory. -/
def read_register (e : RegEnv) (s : RegSt) (regnum : Nat) : Nat :=
  if e.isPseudo regnum then e.pseudoValue regnum
  else
    let a1 := e.regAddress regnum
    let a2 := if a1 = none ∧ e.isSgpr regnum then e.regAddress e.s0 else a1
    let a3 := if a2 = none ∧ e.isVgpr regnum then e.regAddress e.v0 else a2
    if e.isTtmp regnum ∧ ¬ e.isPriv then 0
    else if s.isParked ∧ regnum = e.pcReg then s.parkedPc
    else
      match a3 with
      | some a => if cache_contains e a (e.regSize regnum) then s.cache a else s.mem a
      | none => 0

/-- `wave_t::write_register` (wave.cpp:704-765), writing a whole register.
Pseudo-register writes delegate to the architecture and do not touch the
modelled state; out-of-range SGPR/VGPR writes and non-privileged TTMP
writes are dropped; a parked pc write goes to `m_parked_pc` only; cached
addresses are written to the cache (setting the dirty bit) and everything
else to global memory. -/
def write_register (e : RegEnv) (s : RegSt) (regnum v : Nat) : RegSt :=
  if e.isPseudo regnum then s
  else
    let a1 := e.regAddress regnum
    if a1 = none ∧ (e.isSgpr regnum ∨ e.isVgpr regnum) then s
    else if e.isTtmp regnum ∧ ¬ e.isPriv then s
    else if s.isParked ∧ regnum = e.pcReg then { s with parkedPc := v }
    else
      match a1 with
      | some a =>
        if cache_contains e a (e.regSize regnum) then
          { s with cache := fun x => if x = a then v else s.cache x, cacheDirty := true }
        else
          { s with mem := fun x => if x = a then v else s.mem x }
      | none => s

/-- `wave_t::park` at the register-routing level (wave.cpp:133-157): save
the real pc (read through `read_register`), write the park instruction
address through `write_register` while still unparked, then set
`m_is_parked`. -/
def park_registers (e : RegEnv) (parkAddr : Nat) (s : RegSt) : RegSt :=
  let realPc := read_register e s e.pcReg
  let s1 := { s with parkedPc := realPc }
  let s2 := write_register e s1 e.pcReg parkAddr
  { s2 with isParked := true }

/- ----- swizzled private-memory transfer ----- -/

/-- One dword-bounded chunk of a swizzled transfer: the segment address of
its first byte, the global address it is transferred at, and its size in
bytes. -/
structure Chunk where
  seg : Nat
  global : Nat
  size : Nat
deriving DecidableEq, Repr

/-- The swizzled-layout byte offset of segment byte `a` for lane `lane`
out of `lc` (wave.cpp:788-789):
`(a / 4) * lane_count * 4 + lane_id * 4 + a % 4`. -/
def swizzleOffset (lc lane a : Nat) : Nat :=
  a / 4 * lc * 4 + lane * 4 + a % 4

/-- `request_size` of one loop iteration (wave.cpp:785):
`min (4 - segment_address % 4, bytes)`. -/
def chunkRequest (a n : Nat) : Nat := min (4 - a % 4) n

/-- `xfer_size` of one loop iteration after the bounds check against the
scratch size (wave.cpp:786-795). -/
def chunkXfer (lc lane ssize a n : Nat) : Nat :=
  if swizzleOffset lc lane a + chunkRequest a n > ssize then
    (if swizzleOffset lc lane a < ssize then ssize - swizzleOffset lc lane a else 0)
  else chunkRequest a n

/-- The transfer loop of `wave_t::xfer_private_memory_swizzled`
(wave.cpp:779-820), returning the chunks transferred in order.  Each
iteration requests `min (4 - a % 4) bytes` bytes at the swizzled global
address, truncates the request against `scratch_size` (returning
immediately when nothing fits), stops after a short chunk, and otherwise
advances by the transferred size.  The global-memory partial reads/writes
themselves are modelled as transferring every byte the loop hands them. -/
def xferSwizzledChunks (lc lane base ssize : Nat) (a n : Nat) : List Chunk :=
  if hn : n = 0 then []
  else if hx : chunkXfer lc lane ssize a n = 0 then []
  else if chunkRequest a n ≠ chunkXfer lc lane ssize a n then
    [⟨a, base + swizzleOffset lc lane a, chunkXfer lc lane ssize a n⟩]
  else
    ⟨a, base + swizzleOffset lc lane a, chunkXfer lc lane ssize a n⟩ ::
      xferSwizzledChunks lc lane base ssize (a + chunkXfer lc lane ssize a n)
        (n - chunkXfer lc lane ssize a n)
termination_by n
decreasing_by
  exact Nat.sub_lt (Nat.pos_of_ne_zero hn) (Nat.pos_of_ne_zero hx)

/-- `wave_t::xfer_private_memory_swizzled` (wave.cpp:767-827): the lane
check, then the transfer loop.  `none` models the
`AMD_DBGAPI_STATUS_ERROR_INVALID_LANE_ID` return; `AMD_DBGAPI_LANE_NONE`
is an out-of-range lane value. -/
def xfer_private_memory_swizzled (lc lane base ssize : Nat) (a n : Nat) :
    Option (List Chunk) :=
  if lane ≥ lc then none
  else some (xferSwizzledChunks lc lane base ssize a n)

/-- The dword chunking stated by the specification: a first chunk of
`min (4 - a % 4) n` bytes, then 4-byte chunks, then a final possibly-short
chunk.  Stated from the spec's words, to be compared with the sizes of the
chunks the code produces. -/
def specFourChunks (n : Nat) : List Nat :=
  if h : n = 0 then []
  else if n ≤ 4 then [n]
  else 4 :: specFourChunks (n - 4)
termination_by n
decreasing_by
  exact Nat.sub_lt (Nat.pos_of_ne_zero h) (by norm_num)

/-- Chunk sizes stated by the specification for a transfer of `n` bytes
starting at segment address `a`. -/
def specChunkSizes (a n : Nat) : List Nat :=
  if n = 0 then []
  else min (4 - a % 4) n :: specFourChunks (n - min (4 - a % 4) n)

/- ----- get_info (WATCHPOINTS) ----- -/

/-- The inputs determining the `AMD_DBGAPI_WAVE_INFO_WATCHPOINTS` branch of
`wave_t::get_info` (wave.cpp:1015-1047): the number of triggered
watchpoints, whether the client allocator returned a null buffer, and
whether copying the result list to the client succeeds.

Modelled from the spec: `amd::dbgapi::allocate_memory` is the client
allocator (its failure is a null return), and `utils::get_info` copies a
value to the client, failing with `INVALID_ARGUMENT_COMPATIBILITY` on a
size mismatch; neither is part of the given sources. -/
structure WatchpointQuery where
  count : Nat
  allocReturnsNull : Bool
  copySucceeds : Bool
deriving DecidableEq, Repr

/-- The `AMD_DBGAPI_WAVE_INFO_WATCHPOINTS` branch of `wave_t::get_info`
(wave.cpp:1015-1047): status returned, paired with whether
`deallocate_memory` was called on the allocated id buffer. -/
def get_info_watchpoints (q : WatchpointQuery) : Status × Bool :=
  if q.count ≠ 0 ∧ q.allocReturnsNull = true then (.clientCallback, false)
  else
    let status := if q.copySucceeds then Status.success else Status.invalidArgumentCompatibility
    if status ≠ Status.success then (status, true) else (status, false)

/- ----- concrete sample values used by witnesses and counterexamples ----- -/

/-- A visible running wave. -/
def wave0 : Wave :=
  { state := WaveState.run, visibility := Visibility.visible, stopReason := 0,
    stopRequested := false, isParked := false, parkedPc := 0, cwsrPc := 0x1000,
    lastStoppedPc := 0, haltBit := false, displacedStepping := none,
    lastStopEvent := none, processChangedWave := false }

/-- A visible stopped wave with no stop event outstanding. -/
def waveStopped : Wave := { wave0 with state := WaveState.stop }

/-- A stopped wave whose stop event is still pending (not yet reported). -/
def wavePendingEvent : Wave :=
  { waveStopped with lastStopEvent := some EventState.pending }

/-- A stopped wave whose stop event has been reported but not processed. -/
def waveReportedEvent : Wave :=
  { waveStopped with lastStopEvent := some EventState.reported }

/-- The displaced stepping buffer of `waveDisplaced`. -/
def displ0 : DisplacedStepping :=
  { fromAddr := 0x2000, toAddr := 0xF0000,
    originalInstruction := { isTerminating := false, canSimulate := false },
    isSimulated := false }

/-- A stopped wave with an outstanding (non-simulated) displaced stepping. -/
def waveDisplaced : Wave :=
  { waveStopped with displacedStepping := some displ0 }

/-- A stopped wave with a pending stop event and the SINGLE_STEP stop
reason bit set. -/
def waveSingleStepReason : Wave :=
  { waveStopped with
    lastStopEvent := some EventState.pending
    stopReason := STOP_REASON_SINGLE_STEP }

/-- A running wave still hidden halted at launch, halt bit set. -/
def waveHaltedAtLaunch : Wave :=
  { wave0 with visibility := Visibility.hiddenHaltedAtLaunch, haltBit := true }

/-- A default environment: a non-parking architecture with no instruction
readable at pc and no agent exceptions. -/
def env0 : Env :=
  { parkStoppedWaves := false, parkInstructionAddress := 0xffe0,
    terminatingInstructionAddress := 0xfff0, instructionAtPc := none,
    simulateOutcome := false, simulatedState := WaveState.run,
    simulatedStopReason := 0, agentExceptions := 0,
    otherAgentWaveStoppedWithMemViol := false }

/-- An environment whose instruction at pc is a terminating instruction. -/
def envTerm : Env :=
  { env0 with instructionAtPc := some { isTerminating := true, canSimulate := false } }

/-- A register layout where pc is register 100 at address 800, all
classification predicates false, registers 8 bytes wide, CWSR cache window
`[700, 900)`. -/
def regEnv0 : RegEnv :=
  { pcReg := 100, s0 := 0, v0 := 50,
    isPseudo := fun _ => false, isSgpr := fun _ => false,
    isVgpr := fun _ => false, isTtmp := fun _ => false,
    regAddress := fun r => some (r * 8), regSize := fun _ => 8,
    isPriv := true, cacheBase := 700, cacheLen := 200,
    pseudoValue := fun _ => 0 }

/-- A parked register state. -/
def regStParked : RegSt :=
  { isParked := true, parkedPc := 0x3000, cache := fun _ => 0,
    cacheDirty := false, mem := fun _ => 0 }

/-- An unparked register state whose cached pc slot holds 0x3000. -/
def regStUnparked : RegSt :=
  { isParked := false, parkedPc := 0, cache := fun a => if a = 800 then 0x3000 else 0,
    cacheDirty := false, mem := fun _ => 0 }

/- ===================== theorems ===================== -/

/-- C2: for a wave in state STOP, `client_visible_state` returns STOP when
the last stop event is absent or its state is at least reported, and
otherwise returns SINGLE_STEP when the SINGLE_STEP stop-reason bit is set
and RUN when it is not; for a wave not in state STOP it returns the state
unchanged. -/
theorem client_visible_state_correct (w : Wave) :
    (w.state ≠ WaveState.stop → client_visible_state w = w.state)
    ∧ (w.state = WaveState.stop → w.lastStopEvent = none →
        client_visible_state w = WaveState.stop)
    ∧ (∀ es, w.state = WaveState.stop → w.lastStopEvent = some es →
        EventState.reported.toNat ≤ es.toNat → client_visible_state w = WaveState.stop)
    ∧ (∀ es, w.state = WaveState.stop → w.lastStopEvent = some es →
        es.toNat < EventState.reported.toNat →
        client_visible_state w =
          (if (w.stopReason &&& STOP_REASON_SINGLE_STEP) ≠ 0 then WaveState.singleStep
           else WaveState.run)) := by
  refine ⟨fun h => by simp [client_visible_state, h], fun h he => by simp [client_visible_state, h, he], ?_, ?_⟩
  · intro es h he hge
    simp [client_visible_state, h, he, hge]
  · intro es h he hlt
    have hne : ¬ EventState.reported.toNat ≤ es.toNat := by omega
    simp [client_visible_state, h, he, hne]

/-- C2 witness: a stopped wave with a pending stop event and the
SINGLE_STEP stop-reason bit is client-visibly single-stepping. -/
theorem client_visible_state_correct_witness :
    waveSingleStepReason.state = WaveState.stop
    ∧ client_visible_state waveSingleStepReason =
        (if (waveSingleStepReason.stopReason &&& STOP_REASON_SINGLE_STEP) ≠ 0 then
          WaveState.singleStep
         else WaveState.run) :=
  ⟨by decide,
   (client_visible_state_correct waveSingleStepReason).2.2.2 EventState.pending
     (by decide) (by decide) (by decide)⟩

/-- C3 counterexample: a stopped wave whose last stop event is still
pending (hence not yet processed) is rejected by `amd_dbgapi_wave_resume`
with WAVE_NOT_STOPPED, not with WAVE_NOT_RESUMABLE as claimed: the wave is
not client-visibly stopped while its stop event is unreported. -/
theorem resume_pending_event_counterexample :
    wavePendingEvent.state = WaveState.stop
    ∧ wavePendingEvent.lastStopEvent = some EventState.pending
    ∧ (amd_dbgapi_wave_resume true (some wavePendingEvent) (some wavePendingEvent)
        RESUME_MODE_NORMAL 0).status = Status.waveNotStopped
    ∧ Status.waveNotStopped ≠ Status.waveNotResumable := by
  decide

/-- C3 (amended): with valid arguments, a stopped wave whose last stop
event has been reported but not processed is rejected with
WAVE_NOT_RESUMABLE, without suspending the queue and without any
`set_state` call; a stopped wave whose stop event is still pending is
rejected with WAVE_NOT_STOPPED instead; once the event is processed (or no
stop event exists) both checks pass. -/
theorem resume_not_resumable_spec (w w2 : Wave) (mode ex : Nat)
    (hmode : mode = RESUME_MODE_NORMAL ∨ mode = RESUME_MODE_SINGLE_STEP)
    (hex : ex ≤ exceptions_valid_mask)
    (hstop : w.state = WaveState.stop) :
    (w.lastStopEvent = some EventState.reported →
        amd_dbgapi_wave_resume true (some w) (some w2) mode ex
          = ⟨Status.waveNotResumable, false, none⟩)
    ∧ (w.lastStopEvent = some EventState.pending →
        amd_dbgapi_wave_resume true (some w) (some w2) mode ex
          = ⟨Status.waveNotStopped, false, none⟩)
    ∧ ((w.lastStopEvent = some EventState.processed ∨ w.lastStopEvent = none) →
        (amd_dbgapi_wave_resume true (some w) (some w2) mode ex).status
            ≠ Status.waveNotResumable
        ∧ (amd_dbgapi_wave_resume true (some w) (some w2) mode ex).status
            ≠ Status.waveNotStopped) := by
  have hm : ¬ (mode ≠ RESUME_MODE_NORMAL ∧ mode ≠ RESUME_MODE_SINGLE_STEP) := by
    rcases hmode with h | h <;> simp [h]
  have hx : ¬ (exceptions_valid_mask < ex) := Nat.not_lt.mpr hex
  refine ⟨?_, ?_, ?_⟩
  · intro hev
    have hcvs : client_visible_state w = WaveState.stop := by
      simp [client_visible_state, hstop, hev, EventState.toNat]
    simp [amd_dbgapi_wave_resume, hm, hx, hcvs, last_stop_event_lt_processed, hev,
          EventState.toNat]
  · intro hev
    have hcvs : client_visible_state w ≠ WaveState.stop := by
      by_cases hb : (w.stopReason &&& STOP_REASON_SINGLE_STEP) ≠ 0 <;>
        simp [client_visible_state, hstop, hev, EventState.toNat, hb]
    simp [amd_dbgapi_wave_resume, hm, hx, hcvs]
  · intro hev
    have hcvs : client_visible_state w = WaveState.stop := by
      rcases hev with hev | hev <;>
        simp [client_visible_state, hstop, hev, EventState.toNat]
    have hlt : last_stop_event_lt_processed w = false := by
      rcases hev with hev | hev <;>
        simp [last_stop_event_lt_processed, hev, EventState.toNat]
    rcases hmode with h | h <;> subst h <;>
      by_cases hd : w.displacedStepping.isSome = true <;>
        simp [amd_dbgapi_wave_resume, hx, hcvs, hlt, hd,
              RESUME_MODE_NORMAL, RESUME_MODE_SINGLE_STEP]

/-- C3 witness: the amended theorem applied to a stopped wave with a
reported-but-unprocessed stop event, to one with a pending event, and to
one with no stop event. -/
theorem resume_not_resumable_spec_witness :
    (amd_dbgapi_wave_resume true (some waveReportedEvent) (some waveReportedEvent)
        RESUME_MODE_NORMAL 0 = ⟨Status.waveNotResumable, false, none⟩)
    ∧ (amd_dbgapi_wave_resume true (some wavePendingEvent) (some wavePendingEvent)
        RESUME_MODE_NORMAL 0 = ⟨Status.waveNotStopped, false, none⟩)
    ∧ (amd_dbgapi_wave_resume true (some waveStopped) (some waveStopped)
        RESUME_MODE_NORMAL 0).status ≠ Status.waveNotResumable :=
  ⟨(resume_not_resumable_spec waveReportedEvent waveReportedEvent RESUME_MODE_NORMAL 0
      (Or.inl rfl) (by decide) (by decide)).1 (by decide),
   (resume_not_resumable_spec wavePendingEvent wavePendingEvent RESUME_MODE_NORMAL 0
      (Or.inl rfl) (by decide) (by decide)).2.1 (by decide),
   ((resume_not_resumable_spec waveStopped waveStopped RESUME_MODE_NORMAL 0
      (Or.inl rfl) (by decide) (by decide)).2.2 (Or.inr (by decide))).1⟩

/-- C4: with valid arguments, on a client-visibly stopped wave whose stop
event is processed (or absent) and which has an outstanding displaced
stepping, a NORMAL-mode resume returns RESUME_DISPLACED_STEPPING without
suspending the queue and without calling `set_state`, while a
SINGLE_STEP-mode resume passes the displaced check and resumes the
wave. -/
theorem resume_displaced_requires_single_step (w w2 : Wave) (ex : Nat)
    (hex : ex ≤ exceptions_valid_mask)
    (hcvs : client_visible_state w = WaveState.stop)
    (hev : last_stop_event_lt_processed w = false)
    (hds : w.displacedStepping.isSome = true) :
    amd_dbgapi_wave_resume true (some w) (some w2) RESUME_MODE_NORMAL ex
      = ⟨Status.resumeDisplacedStepping, false, none⟩
    ∧ amd_dbgapi_wave_resume true (some w) (some w2) RESUME_MODE_SINGLE_STEP ex
      = ⟨Status.success, true, some (WaveState.singleStep, ex)⟩ := by
  have hx : ¬ (exceptions_valid_mask < ex) := Nat.not_lt.mpr hex
  constructor
  · simp [amd_dbgapi_wave_resume, hx, hcvs, hev, hds, RESUME_MODE_NORMAL,
          RESUME_MODE_SINGLE_STEP]
  · simp [amd_dbgapi_wave_resume, hx, hcvs, hev, hds, RESUME_MODE_NORMAL,
          RESUME_MODE_SINGLE_STEP]

/-- C4 witness: a stopped displaced-stepping wave with no outstanding stop
event rejects a NORMAL resume and accepts a SINGLE_STEP resume. -/
theorem resume_displaced_requires_single_step_witness :
    amd_dbgapi_wave_resume true (some waveDisplaced) (some waveDisplaced)
      RESUME_MODE_NORMAL 0 = ⟨Status.resumeDisplacedStepping, false, none⟩
    ∧ amd_dbgapi_wave_resume true (some waveDisplaced) (some waveDisplaced)
      RESUME_MODE_SINGLE_STEP 0 = ⟨Status.success, true, some (WaveState.singleStep, 0)⟩ :=
  resume_displaced_requires_single_step waveDisplaced waveDisplaced 0
    (by decide) (by decide) (by decide) (by decide)

/-- C8: a `set_visibility` call that does not change the visibility does
nothing, and a call that moves a wave away from hidden_halted_at_launch
clears the hardware halt bit through `architecture.wave_set_halt (false)`
before recording the new visibility. -/
theorem set_visibility_correct (w : Wave) (v : Visibility) :
    (w.visibility = v → set_visibility w v = (w, []))
    ∧ (w.visibility ≠ v → w.visibility = Visibility.hiddenHaltedAtLaunch →
        (set_visibility w v).1.haltBit = false
        ∧ Action.archSetHalt false ∈ (set_visibility w v).2
        ∧ (set_visibility w v).1.visibility = v) := by
  constructor
  · intro h
    simp [set_visibility, h]
  · intro hne hh
    have hne' : Visibility.hiddenHaltedAtLaunch ≠ v := by
      rw [← hh]; exact hne
    simp [set_visibility, hne, hh, hne']

/-- C8 witness: unhiding a wave that was hidden halted at launch clears
its halt bit and emits the `wave_set_halt (false)` call. -/
theorem set_visibility_correct_witness :
    (set_visibility waveHaltedAtLaunch Visibility.visible).1.haltBit = false
    ∧ Action.archSetHalt false ∈ (set_visibility waveHaltedAtLaunch Visibility.visible).2
    ∧ (set_visibility waveHaltedAtLaunch Visibility.visible).1.visibility
        = Visibility.visible :=
  (set_visibility_correct waveHaltedAtLaunch Visibility.visible).2 (by decide) (by decide)

/-- C10: the WATCHPOINTS query returns CLIENT_CALLBACK exactly when the
triggered-watchpoint count is non-zero and the client allocator returned
null; with a zero count the query is never rejected with CLIENT_CALLBACK
and succeeds when the copy to the client succeeds; and when the copy
fails, the allocated id buffer is deallocated before the failure is
returned. -/
theorem get_info_watchpoints_correct (q : WatchpointQuery) :
    ((get_info_watchpoints q).1 = Status.clientCallback ↔
        q.count ≠ 0 ∧ q.allocReturnsNull = true)
    ∧ (q.count = 0 → (get_info_watchpoints q).1 ≠ Status.clientCallback)
    ∧ (q.count = 0 → q.copySucceeds = true →
        get_info_watchpoints q = (Status.success, false))
    ∧ (¬ (q.count ≠ 0 ∧ q.allocReturnsNull = true) → q.copySucceeds = false →
        (get_info_watchpoints q).1 = Status.invalidArgumentCompatibility
        ∧ (get_info_watchpoints q).2 = true) := by
  rcases q with ⟨c, an, cs⟩
  cases an <;> cases cs <;> by_cases hc : c = 0 <;>
    simp_all [get_info_watchpoints]

/-- C10 witness: two triggered watchpoints and a null allocation yield
CLIENT_CALLBACK. -/
theorem get_info_watchpoints_correct_witness :
    (get_info_watchpoints
      { count := 2, allocReturnsNull := true, copySucceeds := true }).1
      = Status.clientCallback :=
  (get_info_watchpoints_correct
    { count := 2, allocReturnsNull := true, copySucceeds := true }).1.mpr (by decide)

/-- C1 counterexample: `set_state` on a running wave with the same state
RUN and the non-empty valid exceptions bitset WAVE_TRAP returns
immediately with no effect at all — in particular it does not translate
the exceptions and does not call `process.send_exceptions` — refuting the
claim that the early return requires `exceptions == NONE`. -/
theorem set_state_same_state_counterexample :
    wave0.state = WaveState.run
    ∧ EXCEPTION_WAVE_TRAP ≠ 0
    ∧ set_state env0 wave0 WaveState.run EXCEPTION_WAVE_TRAP = (wave0, []) := by
  decide

/-- C1 (amended): `set_state` returns immediately with no effect whenever
the new state equals the previous state, regardless of the exceptions
argument; whenever the new state differs from the previous state and the
exceptions bitset is non-empty, the bitset is translated into the OS
exception mask and `process.send_exceptions` is called. -/
theorem set_state_early_return_amended (e : Env) (w : Wave) (s : WaveState) (ex : Nat) :
    (s = w.state → set_state e w s ex = (w, []))
    ∧ (s ≠ w.state → ex ≠ 0 →
        Action.sendExceptions (os_exceptions_of e ex) ∈ (set_state e w s ex).2) := by
  constructor
  · intro h
    simp [set_state, h]
  · intro hne hex
    have hterm : ¬ (s = WaveState.singleStep ∧ ex = 0 ∧
        terminatingCond { w with stopRequested := decide (s = WaveState.stop) }.displacedStepping
          (if s = WaveState.singleStep then e.instructionAtPc else none) = true) := by
      rintro ⟨-, h0, -⟩
      exact hex h0
    simp only [set_state, if_neg hne, if_neg hterm]
    simp [set_state_go, List.mem_append, hex]

/-- C1 witness: the amended theorem at concrete inputs — a redundant
RUN-to-RUN call with exceptions is a no-op, and resuming a stopped wave to
RUN with WAVE_TRAP emits the `send_exceptions` call. -/
theorem set_state_early_return_amended_witness :
    (set_state env0 wave0 WaveState.run 5 = (wave0, []))
    ∧ Action.sendExceptions (os_exceptions_of env0 EXCEPTION_WAVE_TRAP)
        ∈ (set_state env0 waveStopped WaveState.run EXCEPTION_WAVE_TRAP).2 :=
  ⟨(set_state_early_return_amended env0 wave0 WaveState.run 5).1 (by decide),
   (set_state_early_return_amended env0 waveStopped WaveState.run EXCEPTION_WAVE_TRAP).2
     (by decide) (by decide)⟩

/-- C9: every `set_state` transition from RUN or SINGLE_STEP into STOP
clears `m_stop_reason` to NONE before raising the acknowledgement event,
which is WAVE_COMMAND_TERMINATED when the previous state was SINGLE_STEP
and WAVE_STOP otherwise; the raised event carries stop reason NONE and the
wave ends the call with stop reason NONE. -/
theorem set_state_stop_clears_stop_reason (e : Env) (w : Wave) (ex : Nat)
    (hprev : w.state = WaveState.run ∨ w.state = WaveState.singleStep) :
    (set_state e w WaveState.stop ex).1.stopReason = 0
    ∧ Action.raiseEvent
        (if w.state = WaveState.singleStep then EventKind.waveCommandTerminated
         else EventKind.waveStop) 0
      ∈ (set_state e w WaveState.stop ex).2 := by
  obtain ⟨st, vis, sr, srq, prk, ppc, cpc, lsp, hb, dsp, lse, pcw⟩ := w
  rcases hprev with h | h <;> subst h <;>
    by_cases hpk : e.parkStoppedWaves <;>
      simp [set_state, set_state_go, park, unpark, raise_event, Wave.pc, Wave.writePc,
            simulateCond, terminatingCond, List.mem_append, hpk]

/-- C9 witness: stopping a running wave that carries a stale stop reason
clears the reason and raises a WAVE_STOP event recording reason NONE. -/
theorem set_state_stop_clears_stop_reason_witness :
    (set_state env0 wave0 WaveState.stop 0).1.stopReason = 0
    ∧ Action.raiseEvent
        (if wave0.state = WaveState.singleStep then EventKind.waveCommandTerminated
         else EventKind.waveStop) 0
      ∈ (set_state env0 wave0 WaveState.stop 0).2 :=
  set_state_stop_clears_stop_reason env0 wave0 0 (Or.inl (by decide))

/-- Membership in a list chosen by a condition, split by the condition. -/
theorem list_mem_ite_iff {α : Type} (a : α) (c : Prop) [Decidable c] (l₁ l₂ : List α) :
    a ∈ (if c then l₁ else l₂) ↔ (c ∧ a ∈ l₁) ∨ (¬ c ∧ a ∈ l₂) := by
  split_ifs with h <;> simp [h]

/-- C5: `set_state (SINGLE_STEP, NONE)` on a stopped wave whose next
instruction is terminating (the displaced original if a displaced stepping
is outstanding, otherwise the instruction at pc) terminates the wave: the
pc register ends up at `terminating_instruction_address ()`, the
visibility becomes hidden_at_terminating_instruction, the state becomes
RUN, a WAVE_COMMAND_TERMINATED event is raised, and
`architecture.wave_set_state` is never invoked for the SINGLE_STEP
transition. -/
theorem set_state_single_step_terminating (e : Env) (w : Wave)
    (hstop : w.state = WaveState.stop)
    (hterm : terminatingCond w.displacedStepping e.instructionAtPc = true) :
    (set_state e w WaveState.singleStep 0).1.pc = e.terminatingInstructionAddress
    ∧ (set_state e w WaveState.singleStep 0).1.visibility
        = Visibility.hiddenAtTerminatingInstruction
    ∧ (set_state e w WaveState.singleStep 0).1.state = WaveState.run
    ∧ Action.raiseEvent EventKind.waveCommandTerminated 0
        ∈ (set_state e w WaveState.singleStep 0).2
    ∧ Action.archSetState WaveState.singleStep 0 ∉ (set_state e w WaveState.singleStep 0).2 := by
  obtain ⟨st, vis, sr, srq, prk, ppc, cpc, lsp, hb, dsp, lse, pcw⟩ := w
  obtain rfl : st = WaveState.stop := hstop
  by_cases hpk : e.parkStoppedWaves <;> cases prk <;> cases vis <;>
    simp_all [set_state, terminate, set_state_go, set_visibility, park, unpark,
              raise_event, Wave.pc, Wave.writePc, simulateCond,
              List.mem_append, list_mem_ite_iff]

/-- C5 witness: single-stepping a stopped wave sitting on a terminating
instruction redirects its pc to the terminating-instruction address, hides
it, sets it running, raises WAVE_COMMAND_TERMINATED, and never calls
`wave_set_state` with SINGLE_STEP. -/
theorem set_state_single_step_terminating_witness :
    waveStopped.state = WaveState.stop
    ∧ (set_state envTerm waveStopped WaveState.singleStep 0).1.pc
        = envTerm.terminatingInstructionAddress
    ∧ (set_state envTerm waveStopped WaveState.singleStep 0).1.state = WaveState.run
    ∧ Action.raiseEvent EventKind.waveCommandTerminated 0
        ∈ (set_state envTerm waveStopped WaveState.singleStep 0).2 :=
  ⟨by decide,
   (set_state_single_step_terminating envTerm waveStopped (by decide) (by decide)).1,
   (set_state_single_step_terminating envTerm waveStopped (by decide) (by decide)).2.2.1,
   (set_state_single_step_terminating envTerm waveStopped (by decide) (by decide)).2.2.2.1⟩

/-- C7: while a wave is parked, writing then reading the pc register
round-trips through `m_parked_pc` and leaves the register cache, its
dirty bit, and global memory untouched; `park` itself saves the real pc
(read through the normal path) into `m_parked_pc` and writes the park
instruction address to the pc register through the normal cache-or-memory
path before setting `m_is_parked`. -/
theorem parked_pc_round_trip (e : RegEnv) (s : RegSt) (v parkAddr pcAddr : Nat)
    (hps : e.isPseudo e.pcReg = false)
    (httmp : e.isTtmp e.pcReg = false)
    (hsg : e.isSgpr e.pcReg = false)
    (hvg : e.isVgpr e.pcReg = false)
    (haddr : e.regAddress e.pcReg = some pcAddr) :
    (s.isParked = true →
        read_register e (write_register e s e.pcReg v) e.pcReg = v
        ∧ (write_register e s e.pcReg v).cache = s.cache
        ∧ (write_register e s e.pcReg v).mem = s.mem
        ∧ (write_register e s e.pcReg v).cacheDirty = s.cacheDirty)
    ∧ (s.isParked = false →
        (park_registers e parkAddr s).parkedPc = read_register e s e.pcReg
        ∧ (park_registers e parkAddr s).isParked = true
        ∧ (if cache_contains e pcAddr (e.regSize e.pcReg) = true then
            (park_registers e parkAddr s).cache pcAddr = parkAddr
           else (park_registers e parkAddr s).mem pcAddr = parkAddr)) := by
  constructor
  · intro hp
    simp [read_register, write_register, hps, httmp, hsg, hvg, haddr, hp]
  · intro hp
    refine ⟨?_, ?_, ?_⟩
    · simp [park_registers, write_register, hps, httmp, hsg, hvg, haddr, hp]
      split_ifs <;> simp
    · simp [park_registers, write_register, hps, httmp, hsg, hvg, haddr, hp]
    · split_ifs with hc <;>
        simp [park_registers, write_register, hps, httmp, hsg, hvg, haddr, hp, hc]

/-- C7 witness: on a parked register state, a pc write of 0x4242 reads
back as 0x4242 without touching cache or memory; parking an unparked
state saves the cached pc 0x3000 into `m_parked_pc` and plants the park
address in the cached pc slot. -/
theorem parked_pc_round_trip_witness :
    (read_register regEnv0 (write_register regEnv0 regStParked regEnv0.pcReg 0x4242)
        regEnv0.pcReg = 0x4242
      ∧ (write_register regEnv0 regStParked regEnv0.pcReg 0x4242).cache = regStParked.cache
      ∧ (write_register regEnv0 regStParked regEnv0.pcReg 0x4242).mem = regStParked.mem
      ∧ (write_register regEnv0 regStParked regEnv0.pcReg 0x4242).cacheDirty
          = regStParked.cacheDirty)
    ∧ ((park_registers regEnv0 0xffe0 regStUnparked).parkedPc
          = read_register regEnv0 regStUnparked regEnv0.pcReg
      ∧ (park_registers regEnv0 0xffe0 regStUnparked).isParked = true
      ∧ (if cache_contains regEnv0 800 (regEnv0.regSize regEnv0.pcReg) = true then
          (park_registers regEnv0 0xffe0 regStUnparked).cache 800 = 0xffe0
         else (park_registers regEnv0 0xffe0 regStUnparked).mem 800 = 0xffe0)) :=
  ⟨(parked_pc_round_trip regEnv0 regStParked 0x4242 0xffe0 800
      rfl rfl rfl rfl rfl).1 rfl,
   (parked_pc_round_trip regEnv0 regStUnparked 0x4242 0xffe0 800
      rfl rfl rfl rfl rfl).2 rfl⟩

/-- A transferred chunk never exceeds its request. -/
theorem chunkXfer_le_request (lc lane ssize a n : Nat) :
    chunkXfer lc lane ssize a n ≤ chunkRequest a n := by
  unfold chunkXfer
  split_ifs with h1 h2 <;> omega

/-- The transfer loop at zero remaining bytes produces no chunk. -/
theorem xferSwizzledChunks_zero (lc lane base ssize a : Nat) :
    xferSwizzledChunks lc lane base ssize a 0 = [] := by
  simp [xferSwizzledChunks]

/-- The specification chunking of zero bytes is empty. -/
theorem specFourChunks_zero : specFourChunks 0 = [] := by
  simp [specFourChunks]

/-- Moving `i` bytes forward inside one dword keeps the swizzled layout
contiguous: the global offset advances by exactly `i`. -/
theorem swizzleOffset_add_inside (lc lane a i : Nat) (h : a % 4 + i < 4) :
    swizzleOffset lc lane a + i = swizzleOffset lc lane (a + i) := by
  have hdiv : (a + i) / 4 = a / 4 := by omega
  have hmod : (a + i) % 4 = a % 4 + i := by omega
  unfold swizzleOffset
  rw [hdiv, hmod]
  omega

/-- Every byte of every chunk produced by the transfer loop lands at the
swizzled global address of its segment byte. -/
theorem xferSwizzledChunks_bytes (lc lane base ssize : Nat) :
    ∀ n a, ∀ c ∈ xferSwizzledChunks lc lane base ssize a n, ∀ i, i < c.size →
      c.global + i = base + swizzleOffset lc lane (c.seg + i) := by
  intro n
  induction n using Nat.strong_induction_on with
  | _ n ih =>
    intro a c hc i hi
    have hhead : ∀ hih : i < chunkXfer lc lane ssize a n,
        base + swizzleOffset lc lane a + i = base + swizzleOffset lc lane (a + i) := by
      intro hih
      have h1 := chunkXfer_le_request lc lane ssize a n
      have h2 : chunkRequest a n ≤ 4 - a % 4 := Nat.min_le_left _ _
      have h4 : a % 4 + i < 4 := by omega
      rw [Nat.add_assoc, swizzleOffset_add_inside lc lane a i h4]
    rw [xferSwizzledChunks] at hc
    split at hc
    · simp at hc
    · split at hc
      · simp at hc
      · split at hc
        · rw [List.mem_singleton] at hc
          subst hc
          exact hhead hi
        · rcases List.mem_cons.mp hc with rfl | hc2
          · exact hhead hi
          · next hn hx hr =>
            exact ih (n - chunkXfer lc lane ssize a n)
              (Nat.sub_lt (Nat.pos_of_ne_zero hn) (Nat.pos_of_ne_zero hx))
              (a + chunkXfer lc lane ssize a n) c hc2 i hi

/-- Under the no-truncation bound, one iteration transfers its full
request: the swizzled offset of the chunk stays within the scratch
region. -/
theorem chunkXfer_no_trunc (lc lane ssize a n : Nat) (hlane : lane < lc)
    (hb : (a + n + 3) / 4 * (lc * 4) ≤ ssize) (hn : n ≠ 0) :
    chunkXfer lc lane ssize a n = chunkRequest a n := by
  have hreq4 : chunkRequest a n ≤ 4 - a % 4 := Nat.min_le_left _ _
  have hS : swizzleOffset lc lane a + chunkRequest a n ≤ (a / 4 + 1) * (lc * 4) := by
    have h2 : a / 4 * lc * 4 + lc * 4 = (a / 4 + 1) * (lc * 4) := by ring
    unfold swizzleOffset
    omega
  have hq : a / 4 + 1 ≤ (a + n + 3) / 4 := by omega
  have hmul : (a / 4 + 1) * (lc * 4) ≤ (a + n + 3) / 4 * (lc * 4) :=
    Nat.mul_le_mul_right _ hq
  have hle : swizzleOffset lc lane a + chunkRequest a n ≤ ssize :=
    le_trans hS (le_trans hmul hb)
  unfold chunkXfer
  rw [if_neg (Nat.not_lt.mpr hle)]

/-- On a dword-aligned segment address within the scratch bounds, the loop
produces 4-byte chunks followed by one final possibly-short chunk. -/
theorem xferSwizzledChunks_sizes_aligned (lc lane base ssize : Nat) (hlane : lane < lc) :
    ∀ n a, a % 4 = 0 → (a + n + 3) / 4 * (lc * 4) ≤ ssize →
      List.map Chunk.size (xferSwizzledChunks lc lane base ssize a n) = specFourChunks n := by
  intro n
  induction n using Nat.strong_induction_on with
  | _ n ih =>
    intro a ha hb
    by_cases hn : n = 0
    · subst hn
      rw [xferSwizzledChunks, specFourChunks]
      simp
    · have hx := chunkXfer_no_trunc lc lane ssize a n hlane hb hn
      have hreq : chunkRequest a n = min 4 n := by
        unfold chunkRequest
        rw [ha]
      have hxne : chunkXfer lc lane ssize a n ≠ 0 := by
        rw [hx, hreq]
        omega
      rw [xferSwizzledChunks, dif_neg hn, dif_neg hxne,
          if_neg (fun hcon => hcon hx.symm)]
      rw [List.map_cons]
      rw [hx, hreq]
      by_cases h4 : n ≤ 4
      · have hmn : min 4 n = n := by omega
        have hrhs : specFourChunks n = [n] := by
          conv_lhs => rw [specFourChunks]
          rw [dif_neg hn, if_pos h4]
        rw [hmn, hrhs]
        rw [show n - n = 0 from by omega]
        rw [xferSwizzledChunks_zero]
        simp
      · have hmn : min 4 n = 4 := by omega
        have hrhs : specFourChunks n = 4 :: specFourChunks (n - 4) := by
          conv_lhs => rw [specFourChunks]
          rw [dif_neg hn, if_neg h4]
        rw [hmn, hrhs]
        have ha' : (a + 4) % 4 = 0 := by omega
        have hb' : (a + 4 + (n - 4) + 3) / 4 * (lc * 4) ≤ ssize := by
          rw [show a + 4 + (n - 4) = a + n from by omega]
          exact hb
        rw [ih (n - 4) (by omega) (a + 4) ha' hb']

/-- The loop's chunk sizes match the specification's chunking: a first
chunk of `min (4 - a % 4) n` bytes, then 4-byte chunks, then a final
possibly-short chunk. -/
theorem xferSwizzledChunks_sizes (lc lane base ssize a n : Nat) (hlane : lane < lc)
    (hb : (a + n + 3) / 4 * (lc * 4) ≤ ssize) :
    List.map Chunk.size (xferSwizzledChunks lc lane base ssize a n) = specChunkSizes a n := by
  by_cases hn : n = 0
  · subst hn
    rw [xferSwizzledChunks, specChunkSizes]
    simp
  · have hx := chunkXfer_no_trunc lc lane ssize a n hlane hb hn
    have hr1 : 1 ≤ chunkRequest a n := by
      unfold chunkRequest
      omega
    have hxne : chunkXfer lc lane ssize a n ≠ 0 := by omega
    rw [xferSwizzledChunks, dif_neg hn, dif_neg hxne,
        if_neg (fun hcon => hcon hx.symm)]
    rw [List.map_cons, hx]
    rw [specChunkSizes, if_neg hn]
    have hhead : chunkRequest a n = min (4 - a % 4) n := rfl
    rw [hhead]
    by_cases hz : n - min (4 - a % 4) n = 0
    · rw [hz]
      rw [xferSwizzledChunks_zero, specFourChunks_zero]
      simp
    · have hRn : min (4 - a % 4) n < n := by omega
      have hR4 : min (4 - a % 4) n = 4 - a % 4 := by omega
      have ha' : (a + min (4 - a % 4) n) % 4 = 0 := by omega
      have hb' : (a + min (4 - a % 4) n + (n - min (4 - a % 4) n) + 3) / 4 * (lc * 4)
          ≤ ssize := by
        rw [show a + min (4 - a % 4) n + (n - min (4 - a % 4) n) = a + n from by omega]
        exact hb
      rw [xferSwizzledChunks_sizes_aligned lc lane base ssize hlane
            (n - min (4 - a % 4) n) (a + min (4 - a % 4) n) ha' hb']

/-- C6: for a valid lane, the swizzled private-memory transfer performs
the loop (no INVALID_LANE_ID rejection), every transferred byte at
segment address `s` goes to global address
`scratch_base + (s / 4) * lane_count * 4 + lane * 4 + s % 4`, and — within
the scratch bounds — the transfer proceeds in dword-aligned chunks: first
`min (4 - a % 4) n` bytes, then 4-byte chunks, then a final possibly-short
chunk. -/
theorem xfer_swizzled_correct (lc lane base ssize a n : Nat)
    (hlane : lane < lc)
    (hb : (a + n + 3) / 4 * (lc * 4) ≤ ssize) :
    xfer_private_memory_swizzled lc lane base ssize a n
      = some (xferSwizzledChunks lc lane base ssize a n)
    ∧ (∀ c ∈ xferSwizzledChunks lc lane base ssize a n, ∀ i, i < c.size →
        c.global + i = base + swizzleOffset lc lane (c.seg + i))
    ∧ List.map Chunk.size (xferSwizzledChunks lc lane base ssize a n)
        = specChunkSizes a n := by
  refine ⟨?_, ?_, xferSwizzledChunks_sizes lc lane base ssize a n hlane hb⟩
  · simp [xfer_private_memory_swizzled, Nat.not_le.mpr hlane]
  · intro c hc i hi
    exact xferSwizzledChunks_bytes lc lane base ssize n a c hc i hi

/-- C6 witness: the scenario of spec §8-S4 — 64 lanes, lane 7, 6 bytes at
segment address 3 — is dword-chunked as sizes [1, 4, 1] per the
specification chunking and lands each byte at its swizzled address. -/
theorem xfer_swizzled_correct_witness :
    (7 < 64)
    ∧ xfer_private_memory_swizzled 64 7 0 4096 3 6
        = some (xferSwizzledChunks 64 7 0 4096 3 6)
    ∧ List.map Chunk.size (xferSwizzledChunks 64 7 0 4096 3 6) = specChunkSizes 3 6 :=
  ⟨by decide,
   (xfer_swizzled_correct 64 7 0 4096 3 6 (by decide) (by decide)).1,
   (xfer_swizzled_correct 64 7 0 4096 3 6 (by decide) (by decide)).2.2⟩

end ROCdbgapi
